import Mathlib

/-!
Verification of the swiss locator search pipeline
(src/swiss_locator/swiss_locator_filter.py).

Modelling conventions:
* Python strings are Lean `String`s, processed as `List Char`.
* The two regular expressions of the source are embedded as executable
  scanning functions over `List Char`, including the word-boundary
  semantics of the Python `re` module (ASCII model of the classes
  `\d` and `\w`).
* The coordinates built by `box2geometry` and the priority computed by
  `rank2priority` perform no arithmetic beyond exact decimal parsing and
  the formula `1 - rank/7`; they are modelled as exact rationals.
* Raised exceptions are modelled with `Except`, the exception carrying the
  data that the source interpolates into the message.
-/

/-- ASCII decimal digit, the model of the regex class `\d`. -/
def isDigitChar (c : Char) : Bool := c.isDigit

/-- Letter or underscore: the word characters that are not digits. -/
def isLetterLike (c : Char) : Bool := c.isAlpha || c == '_'

/-- ASCII model of the regex class `\w`. -/
def isWordChar (c : Char) : Bool := c.isAlpha || c.isDigit || c == '_'

/-- Word boundary between `prev` (the character before the current position,
`none` at the start of the string) and a word character standing at the
current position. -/
def wordBoundaryBefore : Option Char → Bool
  | none => true
  | some c => !isWordChar c

/-- Word boundary between a word character just consumed and the remaining
input `rest`. -/
def boundaryAfter : List Char → Bool
  | [] => true
  | c :: _ => !isWordChar c

/-- Greedy match of the number pattern `\d+(\.\d+)?` at the head of `l`:
the maximal digit run, optionally followed by a dot and a second maximal
digit run.  Returns the matched characters and the remaining input. -/
def matchNumber (l : List Char) : Option (List Char × List Char) :=
  let d := l.takeWhile isDigitChar
  let r := l.dropWhile isDigitChar
  if d = [] then none
  else
    match r with
    | '.' :: r2 =>
      let f := r2.takeWhile isDigitChar
      let r3 := r2.dropWhile isDigitChar
      if f = [] then some (d, r) else some (d ++ '.' :: f, r3)
    | _ => some (d, r)

/-- Match of the source pattern `\b(\d+(?:\.\d+)?)\b` at the head of `l`.
On top of `matchNumber` it demands a word boundary on both sides.  When
the closing `\b` fails right after a fractional part, the Python engine
backtracks and drops the fractional part (the boundary before the dot
always holds); when it fails after a plain digit run no backtracking step
can succeed, so the whole match fails. -/
def matchNumberB (prev : Option Char) (l : List Char) :
    Option (List Char × List Char) :=
  if wordBoundaryBefore prev then
    match matchNumber l with
    | none => none
    | some (tok, rem) =>
      if boundaryAfter rem then some (tok, rem)
      else if tok.dropWhile isDigitChar = [] then none
      else some (tok.takeWhile isDigitChar, tok.dropWhile isDigitChar ++ rem)
  else none

/-- One left-to-right sweep of `re.findall` for the bounded pattern: at each
position try `matchNumberB`; on success emit the token and continue right
after it, otherwise advance one character.  The fuel bounds the recursion
and is instantiated with the length of the input, which suffices because
every step consumes at least one character. -/
def pyScanAux : Nat → Option Char → List Char → List (List Char)
  | 0, _, _ => []
  | _ + 1, _, [] => []
  | n + 1, prev, c :: rest =>
    match matchNumberB prev (c :: rest) with
    | some (tok, rem) => tok :: pyScanAux n (some (tok.getLastD c)) rem
    | none => pyScanAux n (some c) rest

/-- The token extraction of the source, line 138:
`re.findall(r'\b(\d+(?:\.\d+)?)\b', box)`. -/
def pyFindall (s : String) : List String :=
  (pyScanAux s.toList.length none s.toList).map List.asString

/-- The same sweep for the plain pattern `\d+(\.\d+)?` with no boundary
anchors. -/
def specScanAux : Nat → List Char → List (List Char)
  | 0, _ => []
  | _ + 1, [] => []
  | n + 1, c :: rest =>
    match matchNumber (c :: rest) with
    | some (tok, rem) => tok :: specScanAux n rem
    | none => specScanAux n rest

/-- Modelled from the spec: the bounding-box tokenisation that the
specification text describes, namely all substrings matching the unsigned
decimal-number pattern `\d+(\.\d+)?`, taken in left-to-right order. -/
def specFindall (s : String) : List String :=
  (specScanAux s.toList.length s.toList).map List.asString

/-- Numeric value of a digit string. -/
def digitsVal (l : List Char) : Nat :=
  l.foldl (fun n c => 10 * n + (c.toNat - 48)) 0

/-- Exact value of a decimal token, the model of Python `float(...)` applied
to an extracted token (no binary rounding is modelled). -/
def parseDecimal (s : String) : ℚ :=
  let d := s.toList.takeWhile isDigitChar
  let r := s.toList.dropWhile isDigitChar
  match r with
  | '.' :: f => mkRat (digitsVal d * 10 ^ f.length + digitsVal f) (10 ^ f.length)
  | _ => mkRat (digitsVal d) 1

/-- QgsRectangle built from (xmin, ymin, xmax, ymax), with exact
coordinates. -/
structure QgsRectangle where
  xmin : ℚ
  ymin : ℚ
  xmax : ℚ
  ymax : ℚ
deriving DecidableEq

/-- The exceptions raised by the filter code: `InvalidBox` (whose message
carries the raw box text) and the `NameError` of `translate_group` (whose
message carries the unknown key). -/
inductive LocatorError where
  | invalidBox (raw : String)
  | unknownGroup (group : String)
deriving DecidableEq

instance {ε α : Type} [DecidableEq ε] [DecidableEq α] :
    DecidableEq (Except ε α) := fun x y =>
  match x, y with
  | .ok a, .ok b => decidable_of_iff (a = b) (by simp)
  | .error a, .error b => decidable_of_iff (a = b) (by simp)
  | .ok _, .error _ => isFalse (by simp)
  | .error _, .ok _ => isFalse (by simp)

/-- `SwissLocatorFilter.box2geometry`, lines 131 to 141: extract the tokens
with `re.findall(r'\b(\d+(?:\.\d+)?)\b', box)`, require exactly four, and
build the rectangle from them in order. -/
def box2geometry (box : String) : Except LocatorError QgsRectangle :=
  let coords := pyFindall box
  if coords.length ≠ 4 then Except.error (LocatorError.invalidBox box)
  else Except.ok
    ⟨parseDecimal (coords.getD 0 ""), parseDecimal (coords.getD 1 ""),
     parseDecimal (coords.getD 2 ""), parseDecimal (coords.getD 3 "")⟩

/-- Helper predicate for boundary invariants: the input is empty or does
not start with a digit. -/
def headNotDigit : List Char → Bool
  | [] => true
  | c :: _ => !isDigitChar c

/-- The category vocabulary of the specification. -/
inductive ResultCategory where
  | ZipCode
  | MunicipalBoundary
  | District
  | Canton
  | Index
  | Address
  | Parcel
deriving DecidableEq

/-- The display label of each category as returned by the source
(`self.tr` is modelled as the identity on the English source text). -/
def ResultCategory.display : ResultCategory → String
  | .ZipCode => "ZIP code"
  | .MunicipalBoundary => "Municipal boundaries"
  | .District => "District"
  | .Canton => "Cantons"
  | .Index => "Index"
  | .Address => "Address"
  | .Parcel => "Parcel"

/-- `SwissLocatorFilter.translate_group`, lines 104 to 119: the closed
lookup table from origin keys to display labels; any other key raises
`NameError` carrying the key. -/
def translate_group (group : String) : Except LocatorError String :=
  if group = "zipcode" then Except.ok "ZIP code"
  else if group = "gg25" then Except.ok "Municipal boundaries"
  else if group = "district" then Except.ok "District"
  else if group = "kantone" then Except.ok "Cantons"
  else if group = "gazetteer" then Except.ok "Index"
  else if group = "address" then Except.ok "Address"
  else if group = "parcel" then Except.ok "Parcel"
  else Except.error (LocatorError.unknownGroup group)

/-- `SwissLocatorFilter.rank2priority`, lines 121 to 129:
`float(-rank / 7 + 1)`, modelled with exact rational arithmetic. -/
def rank2priority (rank : ℤ) : ℚ := -(rank : ℚ) / 7 + 1

/-- The fixed base endpoint of `fetchResults`, line 179. -/
def baseUrl : String := "https://api3.geo.admin.ch/rest/services/api/SearchServer"

/-- Unreserved URL characters, kept verbatim by the percent encoder. -/
def isUnreservedChar (c : Char) : Bool :=
  c.isAlphanum || c == '-' || c == '.' || c == '_' || c == '~'

/-- Upper-case hexadecimal digit of a value below 16. -/
def hexDigitChar (n : Nat) : Char :=
  if n < 10 then Char.ofNat (48 + n) else Char.ofNat (55 + n)

/-- Modelled from the spec: percent encoding of one character ("fully
percent-encoded where required"); `QUrl` and `QUrlQuery` are Qt library
code, not part of this repository.  Code points are encoded from their low
byte; multi-byte UTF-8 expansion is not modelled. -/
def percentEncodeChar (c : Char) : List Char :=
  if isUnreservedChar c then [c]
  else ['%', hexDigitChar (c.toNat / 16 % 16), hexDigitChar (c.toNat % 16)]

/-- Percent encoding of a string, character by character. -/
def percentEncodeCh (s : String) : List Char :=
  (s.toList.map percentEncodeChar).flatten

/-- Percent encoding, string valued. -/
def percentEncode (s : String) : String := (percentEncodeCh s).asString

/-- One encoded `key=value` query item. -/
def encodePair (kv : String × String) : List Char :=
  percentEncodeCh kv.1 ++ '=' :: percentEncodeCh kv.2

/-- Chunks joined with a separator character. -/
def joinSepCh (sep : Char) : List (List Char) → List Char
  | [] => []
  | [p] => p
  | p :: rest => p ++ sep :: joinSepCh sep rest

/-- Query items joined with ampersands. -/
def joinQuery : List (String × String) → List Char
  | [] => []
  | [kv] => encodePair kv
  | kv :: rest => encodePair kv ++ '&' :: joinQuery rest

/-- `SwissLocatorFilter.url_with_param`, lines 161 to 168: append the given
query items to the query-free base URL.  The Qt part (`QUrlQuery.addQueryItem`
per item, then `url.setQuery`) is modelled from the spec as above. -/
def url_with_param (url : String) (params : List (String × String)) : String :=
  url ++ "?" ++ (joinQuery params).asString

/-- The query parameters built by `fetchResults`, lines 180 to 186. -/
def fetchResultsParams (search lang sr : String) : List (String × String) :=
  [("type", "locations"), ("searchText", search), ("returnGeometry", "true"),
   ("lang", lang), ("sr", sr)]

/-- `SwissLocatorFilter.fetchResults`, lines 170 to 190, request view: the
URL of the network request the call issues, or `none` when the search text
is shorter than two characters and the call returns at once. -/
def fetchResults (search lang sr : String) : Option String :=
  if search.length < 2 then none
  else some (url_with_param baseUrl (fetchResultsParams search lang sr))

/-- Everything after the first occurrence of a separator character. -/
def dropThroughChar (sep : Char) : List Char → List Char
  | [] => []
  | c :: rest => if c = sep then rest else dropThroughChar sep rest

/-- Split on a separator character; left inverse of joining with it. -/
def splitChar (sep : Char) : List Char → List (List Char)
  | [] => [[]]
  | c :: rest =>
    if c = sep then [] :: splitChar sep rest
    else
      match splitChar sep rest with
      | [] => [[c]]
      | p :: ps => (c :: p) :: ps

/-- Split at the first occurrence of a separator. -/
def splitFirst (sep : Char) : List Char → List Char × List Char
  | [] => ([], [])
  | c :: rest =>
    if c = sep then ([], rest)
    else (c :: (splitFirst sep rest).1, (splitFirst sep rest).2)

/-- Reading a URL back: the `key=value` items after the question mark, in
order. -/
def queryPairs (url : String) : List (String × String) :=
  (splitChar '&' (dropThroughChar '?' url.toList)).map
    (fun p => ((splitFirst '=' p).1.asString, (splitFirst '=' p).2.asString))

/-- `re.sub` of `'^\d+'` with the empty string: strip one leading run of
digits (line 251). -/
def strip_leading_digits (s : String) : String :=
  (s.toList.dropWhile isDigitChar).asString

/-- `group.replace` of underscores by spaces (line 253). -/
def replace_underscores (s : String) : String :=
  (s.toList.map (fun c => if c = '_' then ' ' else c)).asString

/-- The regex class `[a-z]`. -/
def isLowerAZ (c : Char) : Bool := 'a' ≤ c && c ≤ 'z'

/-- The regex class `[A-Z]`. -/
def isUpperAZ (c : Char) : Bool := 'A' ≤ c && c ≤ 'Z'

/-- Chunk boundary of `break_camelcase`: between `prev` and `c` there is a
cut when `prev` is lower case and `c` upper case, or when `prev` is upper
case and `c` starts an upper-lower pair. -/
def camelBoundary (prev c : Char) (next : Option Char) : Bool :=
  (isLowerAZ prev && isUpperAZ c) ||
    (isUpperAZ prev && isUpperAZ c &&
      (match next with | some d => isLowerAZ d | none => false))

/-- Chunking pass of `break_camelcase`, line 267: accumulate the current
chunk (kept reversed) and cut at every camel boundary. -/
def camelChunks (acc : List Char) (prev : Char) : List Char → List (List Char)
  | [] => [acc.reverse]
  | c :: rest =>
    if camelBoundary prev c rest.head? then
      acc.reverse :: camelChunks [c] c rest
    else camelChunks (c :: acc) c rest

/-- Python space join, line 268. -/
def joinSpace : List String → String
  | [] => ""
  | [s] => s
  | s :: rest => s ++ " " ++ joinSpace rest

/-- `SwissLocatorFilter.break_camelcase`, lines 265 to 268. -/
def break_camelcase (s : String) : String :=
  match s.toList with
  | [] => ""
  | c :: rest => joinSpace ((camelChunks [c] c rest).map List.asString)

/-- `SwissLocatorFilter.beautify_group`, lines 249 to 256, with the three
settings toggles passed explicitly. -/
def beautify_group (stripDigits replaceUnderscores camelSplit : Bool)
    (group : String) : String :=
  let g1 := if stripDigits then strip_leading_digits group else group
  let g2 := if replaceUnderscores then replace_underscores g1 else g1
  if camelSplit then break_camelcase g2 else g2

/-- The fields of one `attrs` object consumed by `handle_response`. -/
structure ResultAttrs where
  label : String
  origin : String
  rank : ℤ
  geom_st_box2d : String
deriving DecidableEq

/-- One emitted `QgsLocatorResult`. -/
structure QgsLocatorResult where
  displayString : String
  group : String
  userData : QgsRectangle
deriving DecidableEq

/-- Did the call return normally? -/
def is_success {ε α : Type} : Except ε α → Bool
  | .ok _ => true
  | .error _ => false

/-- The result loop of `handle_response`, lines 211 to 226: per element,
translate the origin (line 223) and parse the box (line 224); a raised
exception leaves the loop at once and the results emitted before it stand.
Returns the emitted results and the escaped exception, if any. -/
def emit_results : List ResultAttrs → List QgsLocatorResult × Option LocatorError
  | [] => ([], none)
  | loc :: rest =>
    match translate_group loc.origin with
    | .error e => ([], some e)
    | .ok grp =>
      match box2geometry loc.geom_st_box2d with
      | .error e => ([], some e)
      | .ok rect =>
        (⟨loc.label, grp, rect⟩ :: (emit_results rest).1, (emit_results rest).2)

/-- `SwissLocatorFilter.handle_response`, lines 203 to 226: a status other
than 200 is logged and yields nothing; otherwise the result loop runs on
the decoded `results` array (the JSON decoding itself is host library
code, so the model starts from the decoded records). -/
def handle_response (status : Nat) (results : List ResultAttrs) :
    List QgsLocatorResult × Option LocatorError :=
  if status ≠ 200 then ([], none) else emit_results results

/-- The request slot of a filter instance: `self.reply`, set to `None` in
`__init__` (line 83) and never assigned anywhere else in the file. -/
structure FilterState where
  reply : Option Nat
deriving DecidableEq

/-- The state after `__init__`. -/
def init_filter : FilterState := ⟨none⟩

/-- Network side effects of one `fetchResults` call. -/
inductive NetAction where
  | abortReply (id : Nat)
  | issueRequest (url : String)
deriving DecidableEq

/-- Is the action the issuing of a request? -/
def NetAction.isIssue : NetAction → Bool
  | .issueRequest _ => true
  | .abortReply _ => false

/-- `SwissLocatorFilter.fetchResults`, request-tracking view of lines 170
to 196: after the length guard, the guard of lines 176 and 177 aborts
`self.reply` when it is set and still running; the request is then issued
through a local `NetworkAccessManager` and `self.reply` is never
reassigned, so the slot comes back unchanged. -/
def fetchResults_actions (s : FilterState) (isRunning : Nat → Bool)
    (search lang sr : String) : FilterState × List NetAction :=
  if search.length < 2 then (s, [])
  else
    let aborts :=
      match s.reply with
      | some id => if isRunning id then [NetAction.abortReply id] else []
      | none => []
    (s, aborts ++
      [NetAction.issueRequest (url_with_param baseUrl (fetchResultsParams search lang sr))])

/-- A sequence of `fetchResults` calls on one filter instance, collecting
the network actions in order. -/
def run_searches :
    FilterState → List ((Nat → Bool) × String × String × String) →
      FilterState × List NetAction
  | s, [] => (s, [])
  | s, call :: rest =>
    ((run_searches (fetchResults_actions s call.1 call.2.1 call.2.2.1 call.2.2.2).1 rest).1,
      (fetchResults_actions s call.1 call.2.1 call.2.2.1 call.2.2.2).2 ++
        (run_searches (fetchResults_actions s call.1 call.2.1 call.2.2.1 call.2.2.2).1 rest).2)

/-! ### Lemmas about the token matchers -/

theorem dropWhile_head_false {α : Type} (p : α → Bool) :
    ∀ {l : List α} {c : α} {t : List α}, l.dropWhile p = c :: t → p c = false := by
  intro l
  induction l with
  | nil => intro c t h; simp [List.dropWhile] at h
  | cons a l ih =>
    intro c t h
    rw [List.dropWhile_cons] at h
    by_cases hp : p a = true
    · rw [if_pos hp] at h; exact ih h
    · rw [if_neg hp] at h
      cases h
      simpa using hp

theorem isWordChar_false {c : Char} (h1 : isDigitChar c = false)
    (h2 : isLetterLike c = false) : isWordChar c = false := by
  simp only [isLetterLike, Bool.or_eq_false_iff] at h2
  simp only [isWordChar, Bool.or_eq_false_iff]
  exact ⟨⟨h2.1, h1⟩, h2.2⟩

theorem matchNumber_none_of_not_digit {c : Char} (rest : List Char)
    (hc : isDigitChar c = false) : matchNumber (c :: rest) = none := by
  simp [matchNumber, List.takeWhile_cons, hc]

theorem matchNumber_ne_none_of_digit {c : Char} (rest : List Char)
    (hc : isDigitChar c = true) : matchNumber (c :: rest) ≠ none := by
  simp only [matchNumber, List.takeWhile_cons, hc, if_true]
  intro h
  split at h
  · simp_all
  · split at h
    · split at h <;> cases h
    · cases h

theorem matchNumber_some_facts {l tok rem : List Char}
    (h : matchNumber l = some (tok, rem)) :
    tok ≠ [] ∧ (∃ a t, tok = a :: t ∧ isDigitChar a = true) ∧
      (∀ x ∈ tok, isDigitChar x = true ∨ x = '.') ∧
      (∀ x ∈ rem, x ∈ l) ∧
      (rem = [] ∨ ∃ a t, rem = a :: t ∧ isDigitChar a = false) := by
  simp only [matchNumber] at h
  split at h
  · exact absurd h (by simp)
  case isFalse hd =>
    have d_digit : ∀ x ∈ l.takeWhile isDigitChar, isDigitChar x = true :=
      fun x hx => List.mem_takeWhile_imp hx
    have d_head : ∃ a t, l.takeWhile isDigitChar = a :: t ∧ isDigitChar a = true := by
      cases htk : l.takeWhile isDigitChar with
      | nil => exact absurd htk hd
      | cons a t =>
        exact ⟨a, t, rfl, d_digit a (by rw [htk]; exact List.mem_cons_self a t)⟩
    have drop_shape : ∀ (m : List Char), m.dropWhile isDigitChar = [] ∨
        ∃ a t, m.dropWhile isDigitChar = a :: t ∧ isDigitChar a = false := by
      intro m
      cases hdw : m.dropWhile isDigitChar with
      | nil => exact Or.inl rfl
      | cons a t => exact Or.inr ⟨a, t, rfl, dropWhile_head_false isDigitChar hdw⟩
    split at h
    case h_1 r2 heq =>
      split at h
      case isTrue hf =>
        cases h
        refine ⟨hd, d_head, fun x hx => Or.inl (d_digit x hx), ?_, ?_⟩
        · intro x hx
          exact (List.dropWhile_sublist isDigitChar).subset hx
        · rcases drop_shape l with h0 | h0
          · exact Or.inl h0
          · exact Or.inr h0
      case isFalse hf =>
        cases h
        refine ⟨?_, ?_, ?_, ?_, ?_⟩
        · intro habs
          exact hd (List.append_eq_nil.mp habs).1
        · obtain ⟨a, t, hat, ha⟩ := d_head
          exact ⟨a, t ++ '.' :: r2.takeWhile isDigitChar, by rw [hat]; rfl, ha⟩
        · intro x hx
          rcases List.mem_append.mp hx with hx1 | hx1
          · exact Or.inl (d_digit x hx1)
          · rcases List.mem_cons.mp hx1 with rfl | hx2
            · exact Or.inr rfl
            · exact Or.inl (List.mem_takeWhile_imp hx2)
        · intro x hx
          have hx2 : x ∈ r2 := (List.dropWhile_sublist isDigitChar).subset hx
          have hx3 : x ∈ l.dropWhile isDigitChar := by
            rw [heq]; exact List.mem_cons_of_mem _ hx2
          exact (List.dropWhile_sublist isDigitChar).subset hx3
        · rcases drop_shape r2 with h0 | h0
          · exact Or.inl h0
          · exact Or.inr h0
    case h_2 =>
      cases h
      refine ⟨hd, d_head, fun x hx => Or.inl (d_digit x hx), ?_, ?_⟩
      · intro x hx
        exact (List.dropWhile_sublist isDigitChar).subset hx
      · rcases drop_shape l with h0 | h0
        · exact Or.inl h0
        · exact Or.inr h0

theorem matchNumberB_none_of_not_digit {prev : Option Char} {c : Char}
    (rest : List Char) (hc : isDigitChar c = false) :
    matchNumberB prev (c :: rest) = none := by
  unfold matchNumberB
  split
  · rw [matchNumber_none_of_not_digit rest hc]
  · rfl

theorem matchNumberB_eq_of_clean {prev : Option Char} {l : List Char}
    (hw : wordBoundaryBefore prev = true)
    (hc : ∀ c ∈ l, isLetterLike c = false) :
    matchNumberB prev l = matchNumber l := by
  unfold matchNumberB
  rw [hw]
  simp only [if_true]
  cases hm : matchNumber l with
  | none => rfl
  | some pr =>
    obtain ⟨tok, rem⟩ := pr
    have facts := matchNumber_some_facts hm
    have hb : boundaryAfter rem = true := by
      rcases facts.2.2.2.2 with rfl | ⟨a, t, rfl, ha⟩
      · rfl
      · have hmem : a ∈ l := facts.2.2.2.1 a (List.mem_cons_self a t)
        simp [boundaryAfter, isWordChar_false ha (hc a hmem)]
    simp [hb]

theorem matchNumberB_some_tok_chars {prev : Option Char} {l tok rem : List Char}
    (h : matchNumberB prev l = some (tok, rem)) :
    ∀ x ∈ tok, isDigitChar x = true ∨ x = '.' := by
  unfold matchNumberB at h
  split at h
  case isTrue =>
    cases hm : matchNumber l with
    | none => rw [hm] at h; cases h
    | some pr =>
      obtain ⟨tok0, rem0⟩ := pr
      rw [hm] at h
      have facts := matchNumber_some_facts hm
      simp only [] at h
      split at h
      · cases h; exact facts.2.2.1
      · split at h
        · cases h
        · cases h
          intro x hx
          exact facts.2.2.1 x ((List.takeWhile_sublist isDigitChar).subset hx)
  case isFalse => cases h

/-! ### The two scans agree on letter-free input -/

theorem pyScan_eq_specScan :
    ∀ (n : Nat) (prev : Option Char) (l : List Char),
      (∀ c ∈ l, isLetterLike c = false) →
      (wordBoundaryBefore prev || headNotDigit l) = true →
      pyScanAux n prev l = specScanAux n l := by
  intro n
  induction n with
  | zero => intro prev l _ _; rfl
  | succ n ih =>
    intro prev l hc hinv
    cases l with
    | nil => rfl
    | cons c rest =>
      by_cases hd : isDigitChar c = true
      · have hw : wordBoundaryBefore prev = true := by
          simpa [headNotDigit, hd] using hinv
        have hb := matchNumberB_eq_of_clean hw hc
        cases hm : matchNumber (c :: rest) with
        | none => exact absurd hm (matchNumber_ne_none_of_digit rest hd)
        | some pr =>
          obtain ⟨tok, rem⟩ := pr
          have hbm : matchNumberB prev (c :: rest) = some (tok, rem) := by
            rw [hb, hm]
          have facts := matchNumber_some_facts hm
          simp only [pyScanAux, specScanAux, hbm, hm]
          congr 1
          apply ih
          · intro x hx; exact hc x (facts.2.2.2.1 x hx)
          · have hrem : headNotDigit rem = true := by
              rcases facts.2.2.2.2 with rfl | ⟨a, t, rfl, ha⟩
              · rfl
              · simp [headNotDigit, ha]
            simp [hrem]
      · have hd2 : isDigitChar c = false := by simpa using hd
        have h1 := matchNumber_none_of_not_digit rest hd2
        have h2 := @matchNumberB_none_of_not_digit prev c rest hd2
        simp only [pyScanAux, specScanAux, h1, h2]
        apply ih
        · intro x hx; exact hc x (List.mem_cons_of_mem _ hx)
        · have hcl := hc c (List.mem_cons_self c rest)
          simp [wordBoundaryBefore, isWordChar_false hd2 hcl]

theorem asString_toList (l : List Char) : (List.asString l).toList = l := rfl

theorem pyScan_token_chars :
    ∀ (n : Nat) (prev : Option Char) (l : List Char) (t : List Char),
      t ∈ pyScanAux n prev l → ∀ x ∈ t, isDigitChar x = true ∨ x = '.' := by
  intro n
  induction n with
  | zero => intro prev l t ht; simp [pyScanAux] at ht
  | succ n ih =>
    intro prev l t ht
    cases l with
    | nil => simp [pyScanAux] at ht
    | cons c rest =>
      cases hm : matchNumberB prev (c :: rest) with
      | none =>
        simp only [pyScanAux, hm] at ht
        exact ih _ _ _ ht
      | some pr =>
        obtain ⟨tok, rem⟩ := pr
        simp only [pyScanAux, hm] at ht
        rcases List.mem_cons.mp ht with rfl | ht2
        · exact matchNumberB_some_tok_chars hm
        · exact ih _ _ _ ht2

/-! ### Lemmas about the query construction -/

theorem string_toList_append (a b : String) :
    (a ++ b).toList = a.toList ++ b.toList := by
  cases a; cases b; rfl

theorem hexDigitChar_alphanum : ∀ n < 16, (hexDigitChar n).isAlphanum = true := by
  decide

theorem percentEncodeChar_safe {c x : Char} (hx : x ∈ percentEncodeChar c) :
    x.isAlphanum = true ∨ x ∈ (['-', '.', '_', '~', '%'] : List Char) := by
  unfold percentEncodeChar at hx
  split at hx
  case isTrue h =>
    have hx2 : x = c := List.mem_singleton.mp hx
    subst hx2
    simp only [isUnreservedChar, Bool.or_eq_true, beq_iff_eq] at h
    rcases h with (((ha | hb) | hc) | hd) | he
    · exact Or.inl ha
    · exact Or.inr (by simp [hb])
    · exact Or.inr (by simp [hc])
    · exact Or.inr (by simp [hd])
    · exact Or.inr (by simp [he])
  case isFalse h =>
    simp only [List.mem_cons, List.not_mem_nil, or_false] at hx
    rcases hx with rfl | rfl | rfl
    · exact Or.inr (by simp)
    · exact Or.inl (hexDigitChar_alphanum _ (Nat.mod_lt _ (by norm_num)))
    · exact Or.inl (hexDigitChar_alphanum _ (Nat.mod_lt _ (by norm_num)))

theorem percentEncodeCh_safe {s : String} {x : Char}
    (hx : x ∈ percentEncodeCh s) : x ≠ '&' ∧ x ≠ '=' ∧ x ≠ '?' := by
  unfold percentEncodeCh at hx
  rcases List.mem_flatten.mp hx with ⟨l, hl, hxl⟩
  rcases List.mem_map.mp hl with ⟨c, _, rfl⟩
  rcases percentEncodeChar_safe hxl with h | h
  · refine ⟨?_, ?_, ?_⟩ <;> rintro rfl <;> exact absurd h (by decide)
  · refine ⟨?_, ?_, ?_⟩ <;> rintro rfl <;> exact absurd h (by decide)

theorem amp_not_mem_encodePair (kv : String × String) : '&' ∉ encodePair kv := by
  intro h
  unfold encodePair at h
  rcases List.mem_append.mp h with h1 | h1
  · exact (percentEncodeCh_safe h1).1 rfl
  · rcases List.mem_cons.mp h1 with h2 | h2
    · exact absurd h2 (by decide)
    · exact (percentEncodeCh_safe h2).1 rfl

theorem dropThroughChar_append {sep : Char} :
    ∀ (xs ys : List Char), sep ∉ xs →
      dropThroughChar sep (xs ++ sep :: ys) = ys := by
  intro xs
  induction xs with
  | nil => intro ys _; simp [dropThroughChar]
  | cons c xs ih =>
    intro ys h
    have hc : ¬(c = sep) := fun habs => h (habs ▸ List.mem_cons_self c xs)
    simp only [List.cons_append, dropThroughChar, if_neg hc]
    exact ih ys (fun hm => h (List.mem_cons_of_mem c hm))

theorem splitChar_append {sep : Char} :
    ∀ (xs ys : List Char), sep ∉ xs →
      ∀ p ps, splitChar sep ys = p :: ps →
        splitChar sep (xs ++ ys) = (xs ++ p) :: ps := by
  intro xs
  induction xs with
  | nil => intro ys _ p ps h; simpa using h
  | cons c xs ih =>
    intro ys h p ps hys
    have hc : ¬(c = sep) := fun habs => h (habs ▸ List.mem_cons_self c xs)
    have ih2 := ih ys (fun hm => h (List.mem_cons_of_mem c hm)) p ps hys
    simp [splitChar, hc, ih2]

theorem splitChar_joinSepCh {sep : Char} :
    ∀ (parts : List (List Char)), parts ≠ [] → (∀ p ∈ parts, sep ∉ p) →
      splitChar sep (joinSepCh sep parts) = parts := by
  intro parts
  induction parts with
  | nil => intro h _; exact absurd rfl h
  | cons p rest ih =>
    intro _ hsep
    cases rest with
    | nil =>
      have h0 : splitChar sep ([] : List Char) = [] :: [] := rfl
      have h1 := splitChar_append p [] (hsep p (List.mem_cons_self p [])) [] [] h0
      simpa [joinSepCh] using h1
    | cons q rest2 =>
      have hq := ih (by simp) (fun x hx => hsep x (List.mem_cons_of_mem p hx))
      have h1 := splitChar_append p (sep :: joinSepCh sep (q :: rest2))
        (hsep p (List.mem_cons_self p _)) [] (q :: rest2)
        (by simp [splitChar, hq])
      simpa [joinSepCh] using h1

theorem splitFirst_append {sep : Char} :
    ∀ (k v : List Char), sep ∉ k → splitFirst sep (k ++ sep :: v) = (k, v) := by
  intro k
  induction k with
  | nil => intro v _; simp [splitFirst]
  | cons c k ih =>
    intro v h
    have hc : ¬(c = sep) := fun habs => h (habs ▸ List.mem_cons_self c k)
    have ih2 := ih v (fun hm => h (List.mem_cons_of_mem c hm))
    simp [splitFirst, hc, ih2]

theorem joinQuery_eq_joinSepCh (params : List (String × String)) :
    joinQuery params = joinSepCh '&' (params.map encodePair) := by
  induction params with
  | nil => rfl
  | cons kv rest ih =>
    cases rest with
    | nil => rfl
    | cons kv2 rest2 => simp [joinQuery, joinSepCh, ih]

theorem queryPairs_url_with_param (base : String)
    (params : List (String × String)) (hb : '?' ∉ base.toList)
    (hp : params ≠ []) :
    queryPairs (url_with_param base params) =
      params.map (fun kv => (percentEncode kv.1, percentEncode kv.2)) := by
  unfold queryPairs url_with_param
  have h1 : ("?" : String).toList = ['?'] := rfl
  have htl : (base ++ "?" ++ (joinQuery params).asString).toList
      = base.toList ++ '?' :: joinQuery params := by
    rw [string_toList_append, string_toList_append, h1, asString_toList,
      List.append_assoc]
    rfl
  rw [htl, dropThroughChar_append _ _ hb, joinQuery_eq_joinSepCh,
    splitChar_joinSepCh _ (by simpa using hp)
      (fun p hp2 => by
        rcases List.mem_map.mp hp2 with ⟨kv, _, rfl⟩
        exact amp_not_mem_encodePair kv),
    List.map_map]
  have hfun : ∀ kv : String × String,
      ((fun p => ((splitFirst '=' p).1.asString, (splitFirst '=' p).2.asString)) ∘
        encodePair) kv = (percentEncode kv.1, percentEncode kv.2) := by
    intro kv
    have hs := @splitFirst_append '=' (percentEncodeCh kv.1)
      (percentEncodeCh kv.2) (fun h => (percentEncodeCh_safe h).2.1 rfl)
    simp only [Function.comp, encodePair, hs]
    rfl
  rw [funext hfun]

/-! ### Claim C1 -/

/-- Claim C1: for every input whose extraction yields exactly four numeric
tokens, `box2geometry` returns the rectangle whose corners are those tokens
read in order as (xmin, ymin, xmax, ymax); the documented example returns
the rectangle (2600000.5, 1200000, 2601000, 1201000.25); and every input
whose token count differs from four fails with the invalid-box error
carrying the raw text. -/
theorem c1_box2geometry_correct :
    (∀ (box a b c d : String), pyFindall box = [a, b, c, d] →
        box2geometry box = Except.ok
          ⟨parseDecimal a, parseDecimal b, parseDecimal c, parseDecimal d⟩) ∧
    (∀ box : String, (pyFindall box).length ≠ 4 →
        box2geometry box = Except.error (LocatorError.invalidBox box)) ∧
    box2geometry "2600000.5 1200000 2601000 1201000.25" =
      Except.ok ⟨2600000.5, 1200000, 2601000, 1201000.25⟩ := by
  refine ⟨?_, ?_, ?_⟩
  · intro box a b c d h
    simp [box2geometry, h]
  · intro box h
    simp [box2geometry, h]
  · have h : box2geometry "2600000.5 1200000 2601000 1201000.25" =
        Except.ok ⟨mkRat 26000005 10, mkRat 1200000 1, mkRat 2601000 1,
          mkRat 120100025 100⟩ := rfl
    rw [h]
    norm_num [Rat.mkRat_eq_div, QgsRectangle.mk.injEq]

/-- Witness for C1: both quantified parts applied at concrete inputs. -/
theorem c1_box2geometry_correct_witness :
    pyFindall "1 2 3 4" = ["1", "2", "3", "4"] ∧
    box2geometry "1 2 3 4" = Except.ok
      ⟨parseDecimal "1", parseDecimal "2", parseDecimal "3", parseDecimal "4"⟩ ∧
    (pyFindall "600000 200000 601000").length ≠ 4 ∧
    box2geometry "600000 200000 601000" =
      Except.error (LocatorError.invalidBox "600000 200000 601000") :=
  ⟨by decide,
    c1_box2geometry_correct.1 "1 2 3 4" "1" "2" "3" "4" (by decide),
    by decide,
    c1_box2geometry_correct.2.1 "600000 200000 601000" (by decide)⟩

/-! ### Claim C2 -/

/-- Claim C2 counterexample: on the input "a1" the regex of the source,
which carries word-boundary anchors, extracts no token, while the plain
left-to-right scan for the unsigned decimal pattern extracts "1"; the two
token lists therefore differ. -/
theorem c2_boundary_counterexample :
    ¬ (pyFindall "a1" = specFindall "a1") := by decide

/-- Claim C2 (amended): the token list of the source regex equals the plain
left-to-right scan for the unsigned decimal pattern on every input that
contains no letter and no underscore; on inputs where a number run touches
a letter or underscore the word-boundary anchors of the source regex make
the lists differ. -/
theorem c2_tokenisations_agree (s : String)
    (h : ∀ c ∈ s.toList, isLetterLike c = false) :
    pyFindall s = specFindall s := by
  unfold pyFindall specFindall
  rw [pyScan_eq_specScan s.toList.length none s.toList h (by rfl)]

/-- Witness for C2 on a box-like input. -/
theorem c2_tokenisations_agree_witness :
    (∀ c ∈ ("2600000.5 1200000" : String).toList, isLetterLike c = false) ∧
    pyFindall "2600000.5 1200000" = specFindall "2600000.5 1200000" :=
  ⟨by decide, c2_tokenisations_agree "2600000.5 1200000" (by decide)⟩

/-! ### Claim C3 -/

/-- Claim C3: the category mapping is total and exact on the seven known
origin keys, sending each to the display label of its category, and every
other key fails with the unknown-group error. -/
theorem c3_translate_group_total :
    translate_group "zipcode" = Except.ok (ResultCategory.display .ZipCode) ∧
    translate_group "gg25" = Except.ok (ResultCategory.display .MunicipalBoundary) ∧
    translate_group "district" = Except.ok (ResultCategory.display .District) ∧
    translate_group "kantone" = Except.ok (ResultCategory.display .Canton) ∧
    translate_group "gazetteer" = Except.ok (ResultCategory.display .Index) ∧
    translate_group "address" = Except.ok (ResultCategory.display .Address) ∧
    translate_group "parcel" = Except.ok (ResultCategory.display .Parcel) ∧
    ∀ g : String,
      g ∉ (["zipcode", "gg25", "district", "kantone", "gazetteer", "address",
          "parcel"] : List String) →
        translate_group g = Except.error (LocatorError.unknownGroup g) := by
  refine ⟨rfl, rfl, rfl, rfl, rfl, rfl, rfl, ?_⟩
  intro g hg
  simp only [List.mem_cons, List.not_mem_nil, or_false, not_or] at hg
  obtain ⟨h1, h2, h3, h4, h5, h6, h7⟩ := hg
  simp [translate_group, h1, h2, h3, h4, h5, h6, h7]

/-- Witness for C3 at an eighth key. -/
theorem c3_translate_group_total_witness :
    ("swisstopo" ∉ (["zipcode", "gg25", "district", "kantone", "gazetteer",
        "address", "parcel"] : List String)) ∧
    translate_group "swisstopo" =
      Except.error (LocatorError.unknownGroup "swisstopo") :=
  ⟨by decide,
    c3_translate_group_total.2.2.2.2.2.2.2 "swisstopo" (by decide)⟩

/-! ### Claim C4 -/

/-- Claim C4: for every integer rank between 1 and 7 the priority equals
1 - rank/7 computed exactly and lies between 0 and 1; rank 1 gives 6/7,
rank 4 gives 3/7 and rank 7 gives 0. -/
theorem c4_rank2priority_correct :
    (∀ rank : ℤ, 1 ≤ rank → rank ≤ 7 →
        rank2priority rank = 1 - (rank : ℚ) / 7 ∧
        0 ≤ rank2priority rank ∧ rank2priority rank ≤ 1) ∧
    rank2priority 1 = 6 / 7 ∧ rank2priority 4 = 3 / 7 ∧ rank2priority 7 = 0 := by
  refine ⟨?_, by norm_num [rank2priority], by norm_num [rank2priority],
    by norm_num [rank2priority]⟩
  intro rank h1 h7
  have hr1 : (1 : ℚ) ≤ (rank : ℚ) := by exact_mod_cast h1
  have hr7 : (rank : ℚ) ≤ 7 := by exact_mod_cast h7
  refine ⟨by unfold rank2priority; ring, ?_, ?_⟩
  · unfold rank2priority
    have hle : (rank : ℚ) / 7 ≤ 1 := by
      rw [div_le_one (by norm_num : (0 : ℚ) < 7)]
      exact hr7
    rw [neg_div]
    linarith
  · unfold rank2priority
    have hge : 0 ≤ (rank : ℚ) / 7 := div_nonneg (by linarith) (by norm_num)
    rw [neg_div]
    linarith

/-- Witness for C4 at rank 2. -/
theorem c4_rank2priority_correct_witness :
    (1 : ℤ) ≤ 2 ∧ (2 : ℤ) ≤ 7 ∧
    (rank2priority 2 = 1 - ((2 : ℤ) : ℚ) / 7 ∧
      0 ≤ rank2priority 2 ∧ rank2priority 2 ≤ 1) :=
  ⟨by norm_num, by norm_num,
    c4_rank2priority_correct.1 2 (by norm_num) (by norm_num)⟩

/-! ### Claim C5 -/

/-- Claim C5: for every search text, supported language code and supported
coordinate system, the query of the built URL consists of exactly the five
documented parameters, in particular with the text percent encoded; and
for text Bern, language de and CRS 2056 the issued request URL is exactly
the documented one. -/
theorem c5_query_parameters :
    (∀ (text lang sr : String),
        lang ∈ (["de", "fr", "it", "rm", "en"] : List String) →
        sr ∈ (["2056", "21781"] : List String) →
        queryPairs (url_with_param baseUrl (fetchResultsParams text lang sr)) =
          [("type", "locations"), ("searchText", percentEncode text),
           ("returnGeometry", "true"), ("lang", lang), ("sr", sr)]) ∧
    fetchResults "Bern" "de" "2056" =
      some "https://api3.geo.admin.ch/rest/services/api/SearchServer?type=locations&searchText=Bern&returnGeometry=true&lang=de&sr=2056" := by
  constructor
  · intro text lang sr hlang hsr
    rw [queryPairs_url_with_param baseUrl _ (by decide)
      (by simp [fetchResultsParams])]
    have hlang2 : percentEncode lang = lang := by
      simp only [List.mem_cons, List.not_mem_nil, or_false] at hlang
      rcases hlang with rfl | rfl | rfl | rfl | rfl <;> decide
    have hsr2 : percentEncode sr = sr := by
      simp only [List.mem_cons, List.not_mem_nil, or_false] at hsr
      rcases hsr with rfl | rfl <;> decide
    simp [fetchResultsParams, hlang2, hsr2,
      show percentEncode "type" = "type" from by decide,
      show percentEncode "locations" = "locations" from by decide,
      show percentEncode "searchText" = "searchText" from by decide,
      show percentEncode "returnGeometry" = "returnGeometry" from by decide,
      show percentEncode "true" = "true" from by decide,
      show percentEncode "lang" = "lang" from by decide,
      show percentEncode "sr" = "sr" from by decide]
  · decide

/-- Witness for C5 at the documented example. -/
theorem c5_query_parameters_witness :
    ("de" ∈ (["de", "fr", "it", "rm", "en"] : List String)) ∧
    ("2056" ∈ (["2056", "21781"] : List String)) ∧
    queryPairs (url_with_param baseUrl (fetchResultsParams "Bern" "de" "2056")) =
      [("type", "locations"), ("searchText", percentEncode "Bern"),
       ("returnGeometry", "true"), ("lang", "de"), ("sr", "2056")] :=
  ⟨by decide, by decide,
    c5_query_parameters.1 "Bern" "de" "2056" (by decide) (by decide)⟩

/-! ### Claim C6 -/

/-- Claim C6 counterexample: with all three toggles enabled the beautifier
maps "12_CamelCaseWord" to a string different from "Camel Case Word" (the
actual value keeps a leading space). -/
theorem c6_beautify_counterexample :
    beautify_group true true true "12_CamelCaseWord" ≠ "Camel Case Word" := by
  decide

/-- Claim C6 (amended): the beautifier applies its three toggles in the
fixed order strip-leading-digits, replace-underscores-with-spaces,
split-camel-case, each independently skippable; with all three enabled,
"12_CamelCaseWord" becomes " Camel Case Word" — the underscore left after
stripping "12" turns into a leading space. -/
theorem c6_beautify_order :
    (∀ (s u c : Bool) (g : String),
        beautify_group s u c g =
          (fun x => if c then break_camelcase x else x)
            ((fun x => if u then replace_underscores x else x)
              ((fun x => if s then strip_leading_digits x else x) g))) ∧
    beautify_group true true true "12_CamelCaseWord" = " Camel Case Word" :=
  ⟨fun _ _ _ _ => rfl, by decide⟩

/-! ### Claim C7 -/

/-- Claim C7: the request slot is never written back by `fetchResults`
(the source assigns `self.reply` only in `__init__`), so over any sequence
of `fetchResults` calls on a fresh filter instance the slot stays empty
and the abort guard never fires: every recorded network action is the
issuing of a request and no previous request is ever aborted.  This
contradicts the claim that a still-running previous request is aborted
before the new one is issued; the guard on lines 176 and 177 is dead
code. -/
theorem c7_reply_never_aborted :
    ∀ calls : List ((Nat → Bool) × String × String × String),
      (run_searches init_filter calls).1 = init_filter ∧
      (run_searches init_filter calls).2.all NetAction.isIssue = true := by
  have hstate : ∀ (s : FilterState) (f : Nat → Bool) (a b c : String),
      (fetchResults_actions s f a b c).1 = s := by
    intro s f a b c
    unfold fetchResults_actions
    split <;> rfl
  have hact : ∀ (f : Nat → Bool) (a b c : String),
      (fetchResults_actions init_filter f a b c).2.all NetAction.isIssue = true := by
    intro f a b c
    unfold fetchResults_actions
    split <;> rfl
  intro calls
  induction calls with
  | nil => exact ⟨rfl, rfl⟩
  | cons call rest ih =>
    simp only [run_searches, hstate]
    refine ⟨ih.1, ?_⟩
    rw [List.all_append, hact, ih.2]
    rfl


/-! ### Claim C8 -/

/-- Claim C8 counterexample: in a batch of three elements whose middle
bounding-box text is malformed, only the first result is emitted; the
third, well-formed, element yields nothing because the exception leaves
the loop, and the invalid-box error escapes — the loop does not skip the
malformed element. -/
theorem c8_batch_counterexample :
    (handle_response 200
        [⟨"A", "address", 1, "1 2 3 4"⟩, ⟨"B", "address", 1, "1 2 3"⟩,
         ⟨"C", "address", 1, "5 6 7 8"⟩]).1.length = 1 ∧
    (handle_response 200
        [⟨"A", "address", 1, "1 2 3 4"⟩, ⟨"B", "address", 1, "1 2 3"⟩,
         ⟨"C", "address", 1, "5 6 7 8"⟩]).2 =
      some (LocatorError.invalidBox "1 2 3") := ⟨rfl, rfl⟩

/-- Claim C8 (amended): the loop does not skip a malformed element: at the
first element whose box text is malformed (its origin translating fine)
the exception leaves the loop — the results of the elements before it
stand, the malformed element and everything after it produce nothing, and
the error escapes. -/
theorem c8_batch_stops_at_first_invalid :
    ∀ (pre rest : List ResultAttrs) (bad : ResultAttrs) (g : String)
      (e : LocatorError),
      (∀ a ∈ pre, is_success (translate_group a.origin) = true ∧
          is_success (box2geometry a.geom_st_box2d) = true) →
      translate_group bad.origin = Except.ok g →
      box2geometry bad.geom_st_box2d = Except.error e →
      handle_response 200 (pre ++ bad :: rest) =
        ((handle_response 200 pre).1, some e) := by
  intro pre
  induction pre with
  | nil =>
    intro rest bad g e _ htg hbox
    simp only [handle_response, if_neg (by norm_num : ¬((200 : Nat) ≠ 200)),
      List.nil_append]
    simp [emit_results, htg, hbox]
  | cons a pre ih =>
    intro rest bad g e hpre htg hbox
    have ha := hpre a (List.mem_cons_self a pre)
    obtain ⟨g1, hg1⟩ : ∃ g1, translate_group a.origin = Except.ok g1 := by
      cases h : translate_group a.origin with
      | ok x => exact ⟨x, rfl⟩
      | error x => rw [h] at ha; simp [is_success] at ha
    obtain ⟨r1, hr1⟩ : ∃ r1, box2geometry a.geom_st_box2d = Except.ok r1 := by
      cases h : box2geometry a.geom_st_box2d with
      | ok x => exact ⟨x, rfl⟩
      | error x => rw [h] at ha; simp [is_success] at ha
    have ih2 := ih rest bad g e (fun x hx => hpre x (List.mem_cons_of_mem a hx))
      htg hbox
    simp only [handle_response, if_neg (by norm_num : ¬((200 : Nat) ≠ 200))]
      at ih2 ⊢
    simp only [List.cons_append, emit_results, hg1, hr1, List.append_eq]
    rw [show emit_results (pre ++ bad :: rest) = ((emit_results pre).1, some e)
      from ih2]

/-- Witness for C8 at a concrete three-element batch. -/
theorem c8_batch_stops_at_first_invalid_witness :
    translate_group "address" = Except.ok "Address" ∧
    box2geometry "600000 200000" =
      Except.error (LocatorError.invalidBox "600000 200000") ∧
    handle_response 200
        [⟨"A", "address", 1, "600000 200000 601000 201000"⟩,
         ⟨"B", "address", 1, "600000 200000"⟩,
         ⟨"C", "address", 1, "600000 200000 601000 201000"⟩] =
      ((handle_response 200
          [⟨"A", "address", 1, "600000 200000 601000 201000"⟩]).1,
        some (LocatorError.invalidBox "600000 200000")) :=
  ⟨by decide, by decide,
    c8_batch_stops_at_first_invalid
      [⟨"A", "address", 1, "600000 200000 601000 201000"⟩]
      [⟨"C", "address", 1, "600000 200000 601000 201000"⟩]
      ⟨"B", "address", 1, "600000 200000"⟩ "Address"
      (LocatorError.invalidBox "600000 200000")
      (by decide) (by decide) (by decide)⟩

/-! ### Claim C9 -/

/-- Claim C9: a search text of length 0 or 1 causes no network request: the
request view yields none, and the request-tracking view returns the state
unchanged with no network actions and no error. -/
theorem c9_short_search_noop :
    (∀ search lang sr : String, search.length < 2 →
        fetchResults search lang sr = none) ∧
    (∀ (s : FilterState) (isRunning : Nat → Bool) (search lang sr : String),
        search.length < 2 →
        fetchResults_actions s isRunning search lang sr = (s, [])) := by
  constructor
  · intro search lang sr h
    simp [fetchResults, h]
  · intro s f search lang sr h
    simp [fetchResults_actions, h]

/-- Witness for C9 at a one-character search. -/
theorem c9_short_search_noop_witness :
    ("B" : String).length < 2 ∧ fetchResults "B" "de" "2056" = none :=
  ⟨by decide, c9_short_search_noop.1 "B" "de" "2056" (by decide)⟩

/-! ### Claim C10 -/

/-- Claim C10: a minus sign is never part of an extracted token (every
token character is a digit or a dot), and the signed box text
"-1.5 -2 -3 -4" does not fail: it parses into the rectangle (1.5, 2, 3, 4)
with the signs silently dropped. -/
theorem c10_minus_signs_dropped :
    (∀ (s t : String), t ∈ pyFindall s → '-' ∉ t.toList) ∧
    box2geometry "-1.5 -2 -3 -4" = Except.ok ⟨1.5, 2, 3, 4⟩ := by
  constructor
  · intro s t ht hmem
    unfold pyFindall at ht
    rcases List.mem_map.mp ht with ⟨tl, htl, rfl⟩
    rw [asString_toList] at hmem
    rcases pyScan_token_chars s.toList.length none s.toList tl htl '-' hmem
      with h | h
    · exact absurd h (by decide)
    · exact absurd h (by decide)
  · have h : box2geometry "-1.5 -2 -3 -4" =
        Except.ok ⟨mkRat 15 10, mkRat 2 1, mkRat 3 1, mkRat 4 1⟩ := rfl
    rw [h]
    norm_num [Rat.mkRat_eq_div, QgsRectangle.mk.injEq]

/-- Witness for C10 at a signed token. -/
theorem c10_minus_signs_dropped_witness :
    "1.5" ∈ pyFindall "-1.5" ∧ '-' ∉ ("1.5" : String).toList :=
  ⟨by decide, c10_minus_signs_dropped.1 "-1.5" "1.5" (by decide)⟩
